import Mathlib

/-!
Verification development for the AiTool repository.

The definitions below are a shallow embedding of the two core subsystems:
the markup element extraction engine (src/ait/analyzers/html_analyzer.py),
the scenario synthesis pipeline (src/ait/generators/gherkin_generator.py)
and the content-pattern size guard (src/ait/analyzers/framework_detector.py).

The Python code drives everything with `re` patterns over the document text.
Each regular expression used by the source is hand-compiled here into an
executable character-list scanner with the same semantics (leftmost,
non-overlapping matches, case-insensitive literals where the source passes
re.IGNORECASE, greedy and lazy repetition resolved as the concrete pattern
forces).  Machine strings are modelled as `List Char`; `list(set(...))`
deduplication is modelled as `List.dedup` (CPython set order is
unspecified, so only membership and cardinality of those lists are relied
upon by any theorem).
-/

namespace AIT

/-- Double-quote character, written numerically. -/
def dq : Char := Char.ofNat 34

/-- Single-quote character, written numerically. -/
def sq : Char := Char.ofNat 39

/-- Quote class used by the attribute patterns: Python `["\x27\x22]`. -/
def isQuote (c : Char) : Bool := c = dq || c = sq

/-- ASCII whitespace recognised by Python `\s` and `str.strip` /
`str.split()` on ASCII text: space, tab, newline, carriage return,
vertical tab, form feed. -/
def pyWs (c : Char) : Bool :=
  c = ' ' || c = '\t' || c = '\n' || c = '\r' || c = Char.ofNat 11 || c = Char.ofNat 12

/-- Python `str.strip()` (ASCII fragment). -/
def pyStrip (l : List Char) : List Char :=
  ((l.dropWhile pyWs).reverse.dropWhile pyWs).reverse

/-- Lowercasing a character list: Python `str.lower()` (ASCII fragment). -/
def pyLower (l : List Char) : List Char := l.map Char.toLower

/-- Auxiliary for `pySplitWs`: returns the word being built at the front
together with the completed words after it. -/
def splitWsAux : List Char → (List Char × List (List Char))
  | [] => ([], [])
  | c :: cs =>
    let r := splitWsAux cs
    if pyWs c then ([], if r.1.isEmpty then r.2 else r.1 :: r.2)
    else (c :: r.1, r.2)

/-- Python `str.split()` with no argument: split on whitespace runs,
dropping empty tokens. -/
def pySplitWs (l : List Char) : List (List Char) :=
  let r := splitWsAux l
  if r.1.isEmpty then r.2 else r.1 :: r.2

/-- Case-sensitive literal-head test: Python `str.startswith`. -/
def startsWithL : List Char → List Char → Bool
  | [], _ => true
  | _ :: _, [] => false
  | p :: ps, c :: cs => p = c && startsWithL ps cs

/-- Contiguous-substring test: Python `needle in haystack`. -/
def containsSub (pat : List Char) : List Char → Bool
  | [] => pat.isEmpty
  | c :: cs => startsWithL pat (c :: cs) || containsSub pat cs

/-- Match a case-insensitive literal at the head; the literal is given in
lowercase.  Returns the rest of the input on success. -/
def dropCiL : List Char → List Char → Option (List Char)
  | [], s => some s
  | _ :: _, [] => none
  | p :: ps, c :: cs => if c.toLower = p then dropCiL ps cs else none

/-- Split the input at the first occurrence of the character `>`:
models a greedy `[^>]*` capture followed by a literal `>`.  Returns
the capture and the input after the `>`. -/
def splitAtGt : List Char → Option (List Char × List Char)
  | [] => none
  | c :: cs =>
    if c = '>' then some ([], cs)
    else match splitAtGt cs with
      | some (a, r) => some (c :: a, r)
      | none => none

/-- Split the input at the first quote character (either kind): models a
greedy `[^\x22\x27]*` capture followed by the character class `[\x22\x27]`. -/
def splitAtQuote : List Char → Option (List Char × List Char)
  | [] => none
  | c :: cs =>
    if isQuote c then some ([], cs)
    else match splitAtQuote cs with
      | some (a, r) => some (c :: a, r)
      | none => none

/-- Find the first occurrence of the case-insensitive closing literal
`close` (given lowercase); returns the text before it and the input after
it.  Models a lazy `(.*?)` capture followed by the closing literal, with
re.DOTALL making `.` span newlines. -/
def findCiClose (close : List Char) : List Char → Option (List Char × List Char)
  | [] => none
  | c :: cs =>
    match dropCiL close (c :: cs) with
    | some rest => some ([], rest)
    | none =>
      match findCiClose close cs with
      | some (a, r) => some (c :: a, r)
      | none => none

/-- A matcher tries a pattern at the head of the input.  On success it
returns the capture together with the number of consumed characters minus
one (every successful match of the patterns in this file consumes at least
one character, and this convention keeps the scanner structurally sound). -/
def Matcher (α : Type) : Type := List Char → Option (α × Nat)

/-- Fueled scanner implementing `re.findall` semantics: try the matcher at
each position from the left; on success emit the capture with its start
position and resume after the consumed text, otherwise advance one
character.  `fuel` is an upper bound on the number of steps; calling with
`fuel = s.length` is always sufficient because every step consumes at
least one character. -/
def scanGo (m : Matcher α) : Nat → Nat → List Char → List (Nat × α)
  | 0, _, _ => []
  | _ + 1, _, [] => []
  | fuel + 1, pos, c :: cs =>
    match m (c :: cs) with
    | some (a, k) => (pos, a) :: scanGo m fuel (pos + k + 1) (cs.drop k)
    | none => scanGo m fuel (pos + 1) cs

/-- All matches of `m` in `s`, with start positions. -/
def scanAll (m : Matcher α) (s : List Char) : List (Nat × α) :=
  scanGo m s.length 0 s

/-- All captures of `m` in `s`, in match order: `re.findall`. -/
def scanCaptures (m : Matcher α) (s : List Char) : List α :=
  (scanAll m s).map Prod.snd

/-- First capture of `m` in `s`: `re.search`.  The pattern is tried at
every position, including the empty suffix at the end. -/
def searchFirst (m : Matcher α) : List Char → Option α
  | [] => (m []).map Prod.fst
  | c :: cs =>
    match m (c :: cs) with
    | some (a, _) => some a
    | none => searchFirst m cs

/-! ### Matchers for the concrete patterns of html_analyzer.py -/

/-- Matcher for an attribute pattern `name\s*=\s*[\x22\x27]([^\x22\x27]P)[\x22\x27]`
under re.IGNORECASE, where `P` is `+` when `plus` is true (the id, class
and name scans) and `*` otherwise (`_extract_attribute` and the data-value
capture).  `name` is given lowercase. -/
def matchAttrAt (name : List Char) (plus : Bool) (s : List Char) :
    Option (List Char × Nat) :=
  match dropCiL name s with
  | none => none
  | some r1 =>
    match (r1.dropWhile pyWs) with
    | '=' :: r3 =>
      match r3.dropWhile pyWs with
      | q :: r5 =>
        if isQuote q then
          match splitAtQuote r5 with
          | some (cap, rest) =>
            if plus && cap.isEmpty then none
            else some (cap, s.length - rest.length - 1)
          | none => none
        else none
      | [] => none
    | _ => none

/-- `_extract_attribute` (html_analyzer.py lines 257-261): first match of
`attr\s*=\s*[\x22\x27]([^\x22\x27]*)[\x22\x27]`, case-insensitive, or None. -/
def extract_attribute (attrs : List Char) (name : List Char) : Option (List Char) :=
  searchFirst (matchAttrAt name false) attrs

/-- Matcher for a void-tag pattern `<tag([^>]*)/?>` under re.IGNORECASE
(`tag` given lowercase, without the `<`).  The greedy `[^>]*` runs to the
first `>`, so the capture is everything between the literal and that `>`;
the optional `/` is part of the capture when present. -/
def matchOpenTag (tag : List Char) (s : List Char) : Option (List Char × Nat) :=
  match dropCiL ('<' :: tag) s with
  | none => none
  | some r1 =>
    match splitAtGt r1 with
    | none => none
    | some (attrs, rest) => some (attrs, s.length - rest.length - 1)

/-- Matcher for a paired-tag pattern `<tag([^>]*)>(.*?)</tag>` under
re.DOTALL and re.IGNORECASE: attribute text up to the first `>`, then the
lazily matched content up to the first case-insensitive `</tag>`. -/
def matchPaired (tag : List Char) (s : List Char) :
    Option ((List Char × List Char) × Nat) :=
  match dropCiL ('<' :: tag) s with
  | none => none
  | some r1 =>
    match splitAtGt r1 with
    | none => none
    | some (attrs, r2) =>
      match findCiClose ('<' :: '/' :: (tag ++ ['>'])) r2 with
      | none => none
      | some (content, rest) => some ((attrs, content), s.length - rest.length - 1)

/-- Word-or-hyphen character class `[\w-]` of the data-attribute pattern
(ASCII fragment of Python `\w`). -/
def isWordHyphen (c : Char) : Bool := c.isAlphanum || c = '_' || c = '-'

/-- Matcher for the data-attribute pattern
`(data-[\w-]+)\s*=\s*[\x22\x27]([^\x22\x27]*)[\x22\x27]` (html_analyzer.py
line 92).  The first capture keeps the original casing of the matched
attribute name. -/
def matchDataAttr (s : List Char) : Option ((List Char × List Char) × Nat) :=
  match dropCiL ("data-".toList) s with
  | none => none
  | some r1 =>
    let run := r1.takeWhile isWordHyphen
    if run.isEmpty then none
    else
      match matchAttrAt [] false (r1.drop run.length) with
      | none => none
      | some (cap, k) =>
        some ((s.take (5 + run.length), cap), 5 + run.length + k)

/-- The three type words of the input-button alternation
`(?:button|submit|reset)`. -/
def btnTypeWords : List (List Char) := ["button".toList, "submit".toList, "reset".toList]

/-- Matcher for the inner pattern
`type\s*=\s*[\x22\x27](?:button|submit|reset)[\x22\x27]` under
re.IGNORECASE, used to test an input-tag attribute region. -/
def matchBtnTypeAt (s : List Char) : Option (Unit × Nat) :=
  match dropCiL ("type".toList) s with
  | none => none
  | some r1 =>
    match r1.dropWhile pyWs with
    | '=' :: r3 =>
      match r3.dropWhile pyWs with
      | q :: r5 =>
        if isQuote q then
          match btnTypeWords.findSome? (fun w => dropCiL w r5) with
          | some (q2 :: rest) =>
            if isQuote q2 then some ((), s.length - rest.length - 1) else none
          | _ => none
        else none
      | [] => none
    | _ => none

/-- True when the attribute region contains an occurrence of
`type\s*=\s*[\x22\x27](?:button|submit|reset)[\x22\x27]` (case-insensitive). -/
def searchBtnType (attrs : List Char) : Bool :=
  (searchFirst matchBtnTypeAt attrs).isSome

/-- Matcher for the input-button pattern
`<input([^>]*type\s*=\s*[\x22\x27](?:button|submit|reset)[\x22\x27][^>]*)/?>`
(html_analyzer.py line 164).  Backtracking over the two `[^>]*` pieces
makes this pattern match exactly when the plain `<input([^>]*)/?>` pattern
matches with an attribute region that contains the type sub-pattern, and
the group always captures the full region up to the first `>` (the second
`[^>]*` is greedy); none of the sub-pattern characters can be `>`, so the
sub-pattern cannot reach past the region. -/
def matchInputButton (s : List Char) : Option (List Char × Nat) :=
  match matchOpenTag ("input".toList) s with
  | none => none
  | some (attrs, k) => if searchBtnType attrs then some (attrs, k) else none

/-- `re.sub` of `<[^>]+>` with the empty string, fueled (each step
consumes at least one character, so `fuel = length` suffices): used to
strip nested tags from display text (html_analyzer.py lines 157, 188, 208). -/
def stripTagsGo : Nat → List Char → List Char
  | 0, s => s
  | _ + 1, [] => []
  | fuel + 1, c :: cs =>
    if c = '<' then
      match splitAtGt cs with
      | some (a, r) =>
        if a.isEmpty then c :: stripTagsGo fuel cs else stripTagsGo fuel r
      | none => c :: stripTagsGo fuel cs
    else c :: stripTagsGo fuel cs

/-- `re.sub(r'<[^>]+>', '', text)`. -/
def stripTagsL (l : List Char) : List Char := stripTagsGo l.length l

/-! ### Data model (the dictionaries built by HTMLAnalyzer) -/

/-- Record built per `<input>` match (html_analyzer.py lines 133-142).
Dictionary keys: type, name, id, placeholder, value, required. -/
structure InputRecord where
  type : String
  name : Option String
  id : Option String
  placeholder : Option String
  value : Option String
  required : Bool
deriving DecidableEq

/-- Record built per button (html_analyzer.py lines 154-174).  Python key
`class` is spelled `className` here.  Paired `<button>` records always
carry a text string; input-button records carry the raw optional `value`
attribute, hence the common `Option String` type. -/
structure ButtonRecord where
  type : Option String
  text : Option String
  id : Option String
  className : Option String
deriving DecidableEq

/-- Record built per `<form>` match (html_analyzer.py lines 113-121). -/
structure FormRecord where
  form_id : String
  action : Option String
  method : String
  inputs : List InputRecord
  buttons : List ButtonRecord
deriving DecidableEq

/-- Record built per `<a>` match (html_analyzer.py lines 185-193). -/
structure LinkRecord where
  href : Option String
  text : String
  id : Option String
  className : Option String
  target : Option String
deriving DecidableEq

/-- Record built per heading match (html_analyzer.py lines 205-212). -/
structure HeadingRecord where
  level : String
  text : String
  id : Option String
  className : Option String
deriving DecidableEq

/-- Record built per `<img>` match (html_analyzer.py lines 223-230). -/
structure ImageRecord where
  src : Option String
  alt : Option String
  id : Option String
  className : Option String
deriving DecidableEq

/-- Record built per `<table>` match (html_analyzer.py lines 241-253). -/
structure TableRecord where
  table_id : String
  id : Option String
  className : Option String
  rows : Nat
  headers : Nat
deriving DecidableEq

/-- One `data-*` attribute occurrence (html_analyzer.py lines 96-101).
Python key `attribute` is spelled `attr` here (keyword clash). -/
structure DataAttribute where
  attr : String
  value : String
deriving DecidableEq

/-- The `elements` dictionary assembled by `HTMLAnalyzer.analyze`
(html_analyzer.py lines 32-45).  The derived `xpaths` entry is advisory
output not referenced by any claim and is omitted from the embedding. -/
structure Elements where
  ids : List String
  classes : List String
  names : List String
  data_attributes : List DataAttribute
  forms : List FormRecord
  inputs : List InputRecord
  buttons : List ButtonRecord
  links : List LinkRecord
  headings : List HeadingRecord
  images : List ImageRecord
  tables : List TableRecord
deriving DecidableEq

/-- The summary dictionary (html_analyzer.py lines 299-313). -/
structure Summary where
  total_ids : Nat
  total_classes : Nat
  total_names : Nat
  total_forms : Nat
  total_inputs : Nat
  total_buttons : Nat
  total_links : Nat
  total_headings : Nat
  total_images : Nat
  total_tables : Nat
  total_data_attributes : Nat
deriving DecidableEq

/-- The per-document analysis result (html_analyzer.py lines 50-64).
On the error path the source returns `elements: {}` and `summary: {}`;
those empty dictionaries are modelled through their lookup semantics as
all-empty element lists and all-zero counts. -/
structure Catalog where
  file_path : String
  framework : String
  elements : Elements
  summary : Summary
  error : Option String
deriving DecidableEq

/-! ### Extraction functions (HTMLAnalyzer) -/

/-- Python truthiness idiom `x or d` on an optional attribute value:
both None and the empty string fall back to the default. -/
def pyOrDefault (o : Option (List Char)) (d : String) : String :=
  match o with
  | none => d
  | some t => if t.isEmpty then d else String.mk t

/-- `_extract_ids` (lines 66-70): findall of the id attribute pattern,
deduplicated with `list(set(...))`. -/
def extract_ids (content : List Char) : List String :=
  ((scanCaptures (matchAttrAt ("id".toList) true) content).map String.mk).dedup

/-- `_extract_classes` (lines 72-82): findall of the class attribute
pattern, each value split on whitespace, flattened, deduplicated. -/
def extract_classes (content : List Char) : List String :=
  (((scanCaptures (matchAttrAt ("class".toList) true) content).map pySplitWs).flatten.map
    String.mk).dedup

/-- The raw findall of the name attribute pattern (line 87), before the
`list(set(...))` of `_extract_names`. -/
def name_occurrences (content : List Char) : List String :=
  (scanCaptures (matchAttrAt ("name".toList) true) content).map String.mk

/-- `_extract_names` (lines 84-88): the name occurrences deduplicated with
`list(set(...))`. -/
def extract_names (content : List Char) : List String :=
  (name_occurrences content).dedup

/-- `_extract_data_attributes` (lines 90-103). -/
def extract_data_attributes (content : List Char) : List DataAttribute :=
  (scanCaptures matchDataAttr content).map
    (fun q => { attr := String.mk q.1, value := String.mk q.2 })

/-- Builds one input dictionary (lines 133-142). -/
def make_input (attrs : List Char) : InputRecord :=
  { type := pyOrDefault (extract_attribute attrs ("type".toList)) "text",
    name := (extract_attribute attrs ("name".toList)).map String.mk,
    id := (extract_attribute attrs ("id".toList)).map String.mk,
    placeholder := (extract_attribute attrs ("placeholder".toList)).map String.mk,
    value := (extract_attribute attrs ("value".toList)).map String.mk,
    required := containsSub ("required".toList) (pyLower attrs) }

/-- `_extract_inputs` (lines 125-144). -/
def extract_inputs (content : List Char) : List InputRecord :=
  (scanCaptures (matchOpenTag ("input".toList)) content).map make_input

/-- Builds one paired `<button>` dictionary (lines 154-161). -/
def make_button_tag (attrs text : List Char) : ButtonRecord :=
  { type := some (pyOrDefault (extract_attribute attrs ("type".toList)) "button"),
    text := some (String.mk (pyStrip (stripTagsL text))),
    id := (extract_attribute attrs ("id".toList)).map String.mk,
    className := (extract_attribute attrs ("class".toList)).map String.mk }

/-- Builds one input-button dictionary (lines 167-174). -/
def make_input_button (attrs : List Char) : ButtonRecord :=
  { type := (extract_attribute attrs ("type".toList)).map String.mk,
    text := (extract_attribute attrs ("value".toList)).map String.mk,
    id := (extract_attribute attrs ("id".toList)).map String.mk,
    className := (extract_attribute attrs ("class".toList)).map String.mk }

/-- `_extract_buttons` (lines 146-176): the paired `<button>` matches in
document order followed by the input-button matches in document order. -/
def extract_buttons (content : List Char) : List ButtonRecord :=
  (scanCaptures (matchPaired ("button".toList)) content).map
      (fun q => make_button_tag q.1 q.2)
    ++ (scanCaptures matchInputButton content).map make_input_button

/-- Builds one form dictionary (lines 113-121); `i` is the enumeration
index producing the synthetic `form_i` id. -/
def make_form (i : Nat) (attrs inner : List Char) : FormRecord :=
  { form_id := "form_" ++ toString i,
    action := (extract_attribute attrs ("action".toList)).map String.mk,
    method := pyOrDefault (extract_attribute attrs ("method".toList)) "GET",
    inputs := extract_inputs inner,
    buttons := extract_buttons inner }

/-- `_extract_forms` (lines 105-123). -/
def extract_forms (content : List Char) : List FormRecord :=
  (scanCaptures (matchPaired ("form".toList)) content).enum.map
    (fun q => make_form q.1 q.2.1 q.2.2)

/-- Builds one link dictionary (lines 185-193). -/
def make_link (attrs text : List Char) : LinkRecord :=
  { href := (extract_attribute attrs ("href".toList)).map String.mk,
    text := String.mk (pyStrip (stripTagsL text)),
    id := (extract_attribute attrs ("id".toList)).map String.mk,
    className := (extract_attribute attrs ("class".toList)).map String.mk,
    target := (extract_attribute attrs ("target".toList)).map String.mk }

/-- `_extract_links` (lines 178-195). -/
def extract_links (content : List Char) : List LinkRecord :=
  (scanCaptures (matchPaired ("a".toList)) content).map (fun q => make_link q.1 q.2)

/-- The six heading tag names, in the loop order of lines 201-212. -/
def heading_tags : List (List Char) :=
  ["h1".toList, "h2".toList, "h3".toList, "h4".toList, "h5".toList, "h6".toList]

/-- Builds one heading dictionary (lines 205-212). -/
def make_heading (tag : List Char) (attrs text : List Char) : HeadingRecord :=
  { level := String.mk tag,
    text := String.mk (pyStrip (stripTagsL text)),
    id := (extract_attribute attrs ("id".toList)).map String.mk,
    className := (extract_attribute attrs ("class".toList)).map String.mk }

/-- `_extract_headings` (lines 197-214): for each level h1..h6 in turn,
append all matches of that level; so the output is grouped by level, not
interleaved in document order. -/
def extract_headings (content : List Char) : List HeadingRecord :=
  (heading_tags.map (fun t =>
    (scanCaptures (matchPaired t) content).map (fun q => make_heading t q.1 q.2))).flatten

/-- Builds one image dictionary (lines 223-230). -/
def make_image (attrs : List Char) : ImageRecord :=
  { src := (extract_attribute attrs ("src".toList)).map String.mk,
    alt := (extract_attribute attrs ("alt".toList)).map String.mk,
    id := (extract_attribute attrs ("id".toList)).map String.mk,
    className := (extract_attribute attrs ("class".toList)).map String.mk }

/-- `_extract_images` (lines 216-232). -/
def extract_images (content : List Char) : List ImageRecord :=
  (scanCaptures (matchOpenTag ("img".toList)) content).map make_image

/-- Number of matches of `<tag[^>]*>` inside a table body (lines 243-244);
the count of the open-tag scan is identical with or without the optional
trailing slash of `matchOpenTag`, which this reuses. -/
def count_open_tags (tag : List Char) (content : List Char) : Nat :=
  (scanAll (matchOpenTag tag) content).length

/-- Builds one table dictionary (lines 241-253). -/
def make_table (i : Nat) (attrs inner : List Char) : TableRecord :=
  { table_id := "table_" ++ toString i,
    id := (extract_attribute attrs ("id".toList)).map String.mk,
    className := (extract_attribute attrs ("class".toList)).map String.mk,
    rows := count_open_tags ("tr".toList) inner,
    headers := count_open_tags ("th".toList) inner }

/-- `_extract_tables` (lines 234-255). -/
def extract_tables (content : List Char) : List TableRecord :=
  (scanCaptures (matchPaired ("table".toList)) content).enum.map
    (fun q => make_table q.1 q.2.1 q.2.2)

/-- The `elements` dictionary of `analyze` (lines 32-45). -/
def extract_elements (content : List Char) : Elements :=
  { ids := extract_ids content,
    classes := extract_classes content,
    names := extract_names content,
    data_attributes := extract_data_attributes content,
    forms := extract_forms content,
    inputs := extract_inputs content,
    buttons := extract_buttons content,
    links := extract_links content,
    headings := extract_headings content,
    images := extract_images content,
    tables := extract_tables content }

/-- `_generate_summary` (lines 299-313). -/
def generate_summary (e : Elements) : Summary :=
  { total_ids := e.ids.length,
    total_classes := e.classes.length,
    total_names := e.names.length,
    total_forms := e.forms.length,
    total_inputs := e.inputs.length,
    total_buttons := e.buttons.length,
    total_links := e.links.length,
    total_headings := e.headings.length,
    total_images := e.images.length,
    total_tables := e.tables.length,
    total_data_attributes := e.data_attributes.length }

/-- The all-empty elements dictionary (lookup view of `elements: {}`). -/
def emptyElements : Elements :=
  { ids := [], classes := [], names := [], data_attributes := [], forms := [],
    inputs := [], buttons := [], links := [], headings := [], images := [],
    tables := [] }

/-- The all-zero summary (lookup view of `summary: {}`). -/
def zeroSummary : Summary :=
  { total_ids := 0, total_classes := 0, total_names := 0, total_forms := 0,
    total_inputs := 0, total_buttons := 0, total_links := 0, total_headings := 0,
    total_images := 0, total_tables := 0, total_data_attributes := 0 }

/-- `HTMLAnalyzer.analyze` (lines 26-64).  The file read of lines 29-30 is
modelled by an `Except` input: `ok content` is a successful read and
`error msg` is an exception caught by the handler of lines 57-64, which
returns an error-flagged catalog instead of raising.  The embedding is a
total function, matching the never-raises contract. -/
def html_analyze (filePath : String) (readResult : Except String String) : Catalog :=
  match readResult with
  | Except.ok content =>
    let e := extract_elements content.toList
    { file_path := filePath, framework := "HTML", elements := e,
      summary := generate_summary e, error := none }
  | Except.error msg =>
    { file_path := filePath, framework := "HTML", elements := emptyElements,
      summary := zeroSummary, error := some msg }

/-- The extraction engine on a document text (`extract` in the spec). -/
def extract (content : String) : Catalog :=
  html_analyze "document.html" (Except.ok content)

/-! ### Python repr of an input dictionary

`_combine_analysis_results` (gherkin_generator.py line 309) tests
authentication keywords against `str(input_field).lower()`, the repr of
the whole input dictionary.  The repr is reproduced for the value shapes
the extractor can produce: keys in insertion order, `None` and `False` /
`True` spelled as in Python, strings single-quoted (attribute captures can
never contain a quote character of either kind, so Python always picks the
single quote).  Escaping is reproduced for backslash, tab, newline and
carriage return; the `\xNN` escapes Python applies to other control
characters are not reproduced — an escape only inserts characters from
`\\xtnr0-9a-f` into the repr and breaks any letter run it lands in, so it
can neither create nor destroy an occurrence of a lowercase keyword. -/

/-- Python repr escaping of one character (fragment, see above). -/
def pyReprChar (c : Char) : List Char :=
  if c = '\\' then ['\\', '\\']
  else if c = '\t' then ['\\', 't']
  else if c = '\n' then ['\\', 'n']
  else if c = '\r' then ['\\', 'r']
  else [c]

/-- Python repr of a string value (single-quoted). -/
def pyReprStr (v : String) : List Char :=
  sq :: (v.toList.map pyReprChar).flatten ++ [sq]

/-- Python repr of an optional string value. -/
def pyReprOptStr : Option String → List Char
  | none => "None".toList
  | some v => pyReprStr v

/-- Python repr of the input dictionary of lines 133-142. -/
def pyReprInput (i : InputRecord) : List Char :=
  "\x7b".toList
    ++ pyReprStr "type" ++ ": ".toList ++ pyReprStr i.type
    ++ ", ".toList ++ pyReprStr "name" ++ ": ".toList ++ pyReprOptStr i.name
    ++ ", ".toList ++ pyReprStr "id" ++ ": ".toList ++ pyReprOptStr i.id
    ++ ", ".toList ++ pyReprStr "placeholder" ++ ": ".toList ++ pyReprOptStr i.placeholder
    ++ ", ".toList ++ pyReprStr "value" ++ ": ".toList ++ pyReprOptStr i.value
    ++ ", ".toList ++ pyReprStr "required" ++ ": ".toList
    ++ (if i.required then "True".toList else "False".toList)
    ++ "\x7d".toList

/-! ### The combined view (GherkinGenerator._combine_analysis_results) -/

/-- The `all_elements` dictionary of the combined view
(gherkin_generator.py lines 268-278).  Note that it has entries for nine
kinds only: the per-catalog `names`, `data_attributes` and `xpaths` keys
are never carried over. -/
structure CombinedElements where
  ids : List String
  classes : List String
  forms : List FormRecord
  inputs : List InputRecord
  buttons : List ButtonRecord
  links : List LinkRecord
  headings : List HeadingRecord
  images : List ImageRecord
  tables : List TableRecord
deriving DecidableEq

/-- The `summary` dictionary of the combined view (lines 318-325). -/
structure CombinedSummary where
  frameworks_detected : List String
  total_files : Nat
  total_forms : Nat
  total_buttons : Nat
  total_links : Nat
  has_authentication_flow : Bool
deriving DecidableEq

/-- The combined view (lines 266-327). -/
structure Combined where
  frameworks : List String
  all_elements : CombinedElements
  has_forms : Bool
  has_navigation : Bool
  has_authentication : Bool
  files_analyzed : List String
  summary : CombinedSummary
deriving DecidableEq

/-- The authentication keywords of line 306. -/
def authIndicators : List String :=
  ["login", "password", "username", "email", "signin", "auth"]

/-- True when some nested form input of the catalog mentions an
authentication keyword (lines 306-311: the loop sets the flag as soon as
one input matches, which is the same as this existential). -/
def catalogHasAuth (c : Catalog) : Bool :=
  c.elements.forms.any fun f =>
    f.inputs.any fun i =>
      authIndicators.any fun ind =>
        containsSub ind.toList (pyLower (pyReprInput i))

/-- `_combine_analysis_results` (lines 264-327).  The per-result loop
extends each carried list, so every carried list is the concatenation over
the batch; `list(set(...))` on ids and classes (lines 313-316) is again
modelled by `List.dedup`, and the `frameworks` set by `dedup` of the
gathered list. -/
def combine_analysis_results (results : List Catalog) : Combined :=
  let ids := ((results.map (fun r => r.elements.ids)).flatten).dedup
  let classes := ((results.map (fun r => r.elements.classes)).flatten).dedup
  let forms := (results.map (fun r => r.elements.forms)).flatten
  let buttons := (results.map (fun r => r.elements.buttons)).flatten
  let links := (results.map (fun r => r.elements.links)).flatten
  let frameworks := (results.map (fun r => r.framework)).dedup
  let hasAuth := results.any catalogHasAuth
  { frameworks := frameworks,
    all_elements :=
      { ids := ids, classes := classes, forms := forms,
        inputs := (results.map (fun r => r.elements.inputs)).flatten,
        buttons := buttons, links := links,
        headings := (results.map (fun r => r.elements.headings)).flatten,
        images := (results.map (fun r => r.elements.images)).flatten,
        tables := (results.map (fun r => r.elements.tables)).flatten },
    has_forms := results.any (fun r => !r.elements.forms.isEmpty),
    has_navigation := results.any (fun r => !r.elements.links.isEmpty),
    has_authentication := hasAuth,
    files_analyzed := results.map (fun r => r.file_path),
    summary :=
      { frameworks_detected := frameworks,
        total_files := results.length,
        total_forms := forms.length,
        total_buttons := buttons.length,
        total_links := links.length,
        has_authentication_flow := hasAuth } }

/-- The element kinds named by the data model. -/
inductive ElementKind where
  | ids | classes | names | data_attributes | forms | inputs | buttons
  | links | headings | images | tables
deriving DecidableEq

/-- Count of one kind in a catalog: the length of that kind's list in the
`elements` dictionary (for ids and classes the stored list is already the
deduplicated one, so this is the set cardinality). -/
def catalogCount (c : Catalog) : ElementKind → Nat
  | .ids => c.elements.ids.length
  | .classes => c.elements.classes.length
  | .names => c.elements.names.length
  | .data_attributes => c.elements.data_attributes.length
  | .forms => c.elements.forms.length
  | .inputs => c.elements.inputs.length
  | .buttons => c.elements.buttons.length
  | .links => c.elements.links.length
  | .headings => c.elements.headings.length
  | .images => c.elements.images.length
  | .tables => c.elements.tables.length

/-- Count of one kind in the combined view, as a dictionary lookup:
`len(combined['all_elements'][kind])` when the key exists, and `none` for
the kinds the combined dictionary of lines 268-278 does not carry
(`names` and `data_attributes`). -/
def combinedCountOpt (v : Combined) : ElementKind → Option Nat
  | .ids => some v.all_elements.ids.length
  | .classes => some v.all_elements.classes.length
  | .names => none
  | .data_attributes => none
  | .forms => some v.all_elements.forms.length
  | .inputs => some v.all_elements.inputs.length
  | .buttons => some v.all_elements.buttons.length
  | .links => some v.all_elements.links.length
  | .headings => some v.all_elements.headings.length
  | .images => some v.all_elements.images.length
  | .tables => some v.all_elements.tables.length

/-! ### The response parser (GherkinGenerator._parse_ai_response) -/

/-- A parsed scenario (lines 193-197). -/
structure Scenario where
  title : String
  tags : List String
  steps : List String
deriving DecidableEq

/-- The loop state of `_parse_ai_response`: accumulated scenarios, the
open scenario if any, and the pending tag buffer. -/
structure ParseState where
  scenarios : List Scenario
  current : Option Scenario
  currentTags : List String
deriving DecidableEq

/-- Python lines: `str.split` on the newline character, keeping empty
segments (so an empty input yields one empty line). -/
def splitLines : List Char → List (List Char)
  | [] => [[]]
  | c :: cs =>
    match splitLines cs with
    | [] => [[c]]
    | l :: ls => if c = '\n' then [] :: l :: ls else (c :: l) :: ls

/-- Non-overlapping left-to-right `str.replace`, fueled (the pattern is
nonempty wherever this is used, so each step consumes at least one
character and `fuel = length` suffices). -/
def replaceAllGo (pat rep : List Char) : Nat → List Char → List Char
  | 0, s => s
  | _ + 1, [] => []
  | fuel + 1, c :: cs =>
    if startsWithL pat (c :: cs) then
      rep ++ replaceAllGo pat rep fuel ((c :: cs).drop pat.length)
    else c :: replaceAllGo pat rep fuel cs

/-- Python `str.replace(pat, rep)`. -/
def replaceAll (pat rep : List Char) (s : List Char) : List Char :=
  replaceAllGo pat rep s.length s

/-- The step keywords of line 202. -/
def stepKeywords : List (List Char) :=
  ["Given".toList, "When".toList, "Then".toList, "And".toList, "But".toList]

/-- The literal `Scenario:`. -/
def scenarioLit : List Char := "Scenario:".toList

/-- One iteration of the line loop of `_parse_ai_response` (lines
173-205): strip the line; skip blanks; a tag line overwrites the pending
tags; a `Scenario:` line flushes the open scenario and opens a new one
carrying the pending tags; a step-keyword line appends to the open
scenario when one exists; anything else is ignored. -/
def parse_line (st : ParseState) (raw : List Char) : ParseState :=
  let line := pyStrip raw
  if line.isEmpty then st
  else if startsWithL ['@'] line then
    { st with currentTags := (pySplitWs line).map String.mk }
  else if startsWithL scenarioLit line then
    { scenarios := st.scenarios ++ st.current.toList,
      current := some
        { title := String.mk (pyStrip (replaceAll scenarioLit [] line)),
          tags := st.currentTags, steps := [] },
      currentTags := [] }
  else if stepKeywords.any (fun k => startsWithL k line) then
    match st.current with
    | some sc => { st with current := some { sc with steps := sc.steps ++ [String.mk line] } }
    | none => st
  else st

/-- `_parse_ai_response` (lines 165-211): fold the line step over the
split input, then flush a still-open scenario. -/
def parse_ai_response (aiResponse : String) : List Scenario :=
  let final := (splitLines aiResponse.toList).foldl parse_line ⟨[], none, []⟩
  final.scenarios ++ final.current.toList

/-- The generation method recorded by `GherkinGenerator.generate` (lines
46-81) as a function of the availability gate and the collaborator
response, through `_generate_with_ai` (lines 83-102, non-raising path):
with AI enabled and requested, a missing response or an empty parse is
falsy at line 58 and selects the rule-based fallback; a non-empty parse
selects the AI path. -/
def generation_method (aiEnabled useAi : Bool) (aiResponse : Option String) : String :=
  if aiEnabled && useAi then
    match aiResponse with
    | some r => if (parse_ai_response r).isEmpty then "rule_based" else "ai_powered"
    | none => "rule_based"
  else "rule_based"

/-! ### The content-pattern size guard (FrameworkDetector._check_file_content) -/

/-- `_check_file_content` (framework_detector.py lines 244-263): files
whose stat size exceeds 1,000,000 bytes are skipped before the content is
even read, producing no content-pattern evidence; otherwise each pattern
contained in the decoded content yields one evidence line.  The stat size
is an input of the embedding because the source takes it from the
filesystem, independently of the decoded text. -/
def check_file_content (fileSize : Nat) (patterns : List String) (content : String) :
    List String :=
  if fileSize > 1000000 then []
  else (patterns.filter (fun p => containsSub p.toList content.toList)).map
    (fun p => "Content pattern: " ++ p)

/-! ### Concrete documents used by the claims -/

/-- The end-to-end document of the specification. -/
def claim1doc : String :=
  "<form action=\x22/login\x22 method=\x22POST\x22><input type=\x22password\x22 name=\x22pwd\x22></form>"

/-- Document for the C3 counterexample: one name and one data attribute. -/
def claim3doc : String := "<input name=\x22a\x22 data-x=\x22v\x22>"

/-- Concrete two-catalog batch with disjoint identifiers and classes. -/
def claim3batch : List Catalog :=
  [extract "<form a=\x22b\x22></form><div id=\x22a\x22 class=\x22u\x22></div>",
   extract "<div id=\x22b\x22 class=\x22v\x22></div>"]

/-- Document with a duplicated name attribute. -/
def claim5doc1 : String := "<input name=\x22a\x22><input name=\x22a\x22>"

/-- Document with an h2 before an h1. -/
def claim5doc2 : String := "<h2>b</h2><h1>c</h1>"

/-! ### Generic properties of the scanner -/

/-- Every match emitted by the scanner starts at or after the scan
position. -/
theorem scanGo_le (m : Matcher α) :
    ∀ (fuel pos : Nat) (s : List Char) (q : Nat × α),
      q ∈ scanGo m fuel pos s → pos ≤ q.1 := by
  intro fuel
  induction fuel with
  | zero => intro pos s q h; simp [scanGo] at h
  | succ n ih =>
    intro pos s q h
    cases s with
    | nil => simp [scanGo] at h
    | cons c cs =>
      rw [scanGo] at h
      cases hm : m (c :: cs) with
      | none =>
        rw [hm] at h
        exact Nat.le_of_succ_le (ih (pos + 1) cs q h)
      | some ak =>
        rw [hm] at h
        rcases List.mem_cons.mp h with h1 | h1
        · subst h1; exact Nat.le_refl _
        · exact le_trans (by omega) (ih (pos + ak.2 + 1) (cs.drop ak.2) q h1)

/-- Match start positions are strictly increasing: the scanner emits
matches in document order. -/
theorem scanGo_chain (m : Matcher α) :
    ∀ (fuel pos : Nat) (s : List Char),
      List.Chain' (· < ·) ((scanGo m fuel pos s).map Prod.fst) := by
  intro fuel
  induction fuel with
  | zero => intro pos s; simp [scanGo]
  | succ n ih =>
    intro pos s
    cases s with
    | nil => simp [scanGo]
    | cons c cs =>
      rw [scanGo]
      cases hm : m (c :: cs) with
      | none => exact ih (pos + 1) cs
      | some ak =>
        refine List.chain'_cons'.mpr ⟨?_, ih (pos + ak.2 + 1) (cs.drop ak.2)⟩
        intro y hy
        have hmem : y ∈ (scanGo m n (pos + ak.2 + 1) (cs.drop ak.2)).map Prod.fst :=
          List.mem_of_mem_head? hy
        rcases List.mem_map.mp hmem with ⟨q, hq, rfl⟩
        have := scanGo_le m n (pos + ak.2 + 1) (cs.drop ak.2) q hq
        omega

/-- Document order of the match positions of any single-pattern scan. -/
theorem scanAll_chain (m : Matcher α) (s : List Char) :
    List.Chain' (· < ·) ((scanAll m s).map Prod.fst) :=
  scanGo_chain m s.length 0 s

/-! ### List helper lemmas -/

/-- Length of a flattened map is the sum of the mapped lengths. -/
theorem length_flatten_map {β : Type} (f : Catalog → List β) (cats : List Catalog) :
    ((cats.map f).flatten).length = (cats.map (fun c => (f c).length)).sum := by
  rw [List.length_flatten, List.map_map]; rfl

/-- Deduplicating a flattened map can only shrink it. -/
theorem dedup_length_le {β : Type} [DecidableEq β] (f : Catalog → List β)
    (cats : List Catalog) :
    ((cats.map f).flatten).dedup.length ≤ (cats.map (fun c => (f c).length)).sum :=
  le_of_le_of_eq (List.Sublist.length_le (List.dedup_sublist _)) (length_flatten_map f cats)

/-- Deduplication is the identity on a flattened map of per-catalog
duplicate-free lists that are pairwise disjoint across the batch. -/
theorem dedup_length_eq {β : Type} [DecidableEq β] (f : Catalog → List β)
    (cats : List Catalog) (hn : ∀ c ∈ cats, (f c).Nodup)
    (hd : cats.Pairwise (fun a b => ∀ x ∈ f a, x ∉ f b)) :
    ((cats.map f).flatten).dedup.length = (cats.map (fun c => (f c).length)).sum := by
  have hnd : ((cats.map f).flatten).Nodup := by
    refine List.nodup_flatten.mpr ⟨?_, ?_⟩
    · intro l hl
      rcases List.mem_map.mp hl with ⟨c, hc, rfl⟩
      exact hn c hc
    · exact List.pairwise_map.mpr (hd.imp (fun h x hx => h x hx))
  rw [List.Nodup.dedup hnd, length_flatten_map]

/-! ### Claim C1 -/

/-- C1: the end-to-end document produces a catalog with exactly one form
(method POST, action /login) and exactly one input (type password, name
pwd, not required), and the combined view built from that single catalog
reports authentication. -/
theorem claim1_end_to_end :
    ((extract claim1doc).elements.forms.map (fun f => (f.action, f.method)))
        = [(some "/login", "POST")] ∧
    ((extract claim1doc).elements.inputs.map (fun i => (i.type, i.name, i.required)))
        = [("password", some "pwd", false)] ∧
    (combine_analysis_results [extract claim1doc]).has_authentication = true := by
  decide

/-! ### Claim C2 -/

/-- C2: every summary count equals the length of the corresponding
extracted element list (which for identifiers and classes is the
deduplicated list, i.e. the set cardinality). -/
theorem claim2_summary_counts (content : String) :
    (extract content).summary.total_ids = (extract content).elements.ids.length ∧
    (extract content).summary.total_classes = (extract content).elements.classes.length ∧
    (extract content).summary.total_names = (extract content).elements.names.length ∧
    (extract content).summary.total_forms = (extract content).elements.forms.length ∧
    (extract content).summary.total_inputs = (extract content).elements.inputs.length ∧
    (extract content).summary.total_buttons = (extract content).elements.buttons.length ∧
    (extract content).summary.total_links = (extract content).elements.links.length ∧
    (extract content).summary.total_headings = (extract content).elements.headings.length ∧
    (extract content).summary.total_images = (extract content).elements.images.length ∧
    (extract content).summary.total_tables = (extract content).elements.tables.length ∧
    (extract content).summary.total_data_attributes
        = (extract content).elements.data_attributes.length :=
  ⟨rfl, rfl, rfl, rfl, rfl, rfl, rfl, rfl, rfl, rfl, rfl⟩

/-- C2 witness: the invariant instantiated and evaluated on a concrete
document. -/
theorem claim2_witness :
    (extract "<a id=\x22z\x22></a>").summary.total_ids
        = (extract "<a id=\x22z\x22></a>").elements.ids.length ∧
    (extract "<a id=\x22z\x22></a>").summary.total_ids = 1 :=
  ⟨(claim2_summary_counts "<a id=\x22z\x22></a>").1, by decide⟩

/-! ### Claim C3 -/

/-- C3 counterexample: the combined view carries no entry at all for the
names and data-attribute kinds, while the per-catalog counts for those
kinds sum to 1, so the combined count is not the arithmetic sum there. -/
theorem claim3_counterexample :
    combinedCountOpt (combine_analysis_results [extract claim3doc]) ElementKind.names
        = none ∧
    ([extract claim3doc].map (fun c => catalogCount c ElementKind.names)).sum = 1 ∧
    combinedCountOpt (combine_analysis_results [extract claim3doc])
        ElementKind.data_attributes = none ∧
    ([extract claim3doc].map
        (fun c => catalogCount c ElementKind.data_attributes)).sum = 1 := by
  decide

/-- C3 as amended: for the kinds the combined view does carry, the
list-kind counts are the arithmetic sums of the per-catalog counts; the
set-kind (identifier and class) cardinalities are at most the sums, with
equality when the per-catalog lists are duplicate-free and no identifier
or class appears in more than one catalog. -/
theorem claim3_combined_counts (cats : List Catalog) :
    (∀ k ∈ [ElementKind.forms, ElementKind.inputs, ElementKind.buttons,
        ElementKind.links, ElementKind.headings, ElementKind.images,
        ElementKind.tables],
      combinedCountOpt (combine_analysis_results cats) k
        = some ((cats.map (fun c => catalogCount c k)).sum)) ∧
    (combine_analysis_results cats).all_elements.ids.length
        ≤ (cats.map (fun c => catalogCount c ElementKind.ids)).sum ∧
    (combine_analysis_results cats).all_elements.classes.length
        ≤ (cats.map (fun c => catalogCount c ElementKind.classes)).sum ∧
    ((∀ c ∈ cats, c.elements.ids.Nodup) →
      cats.Pairwise (fun a b => ∀ x ∈ a.elements.ids, x ∉ b.elements.ids) →
      (combine_analysis_results cats).all_elements.ids.length
        = (cats.map (fun c => catalogCount c ElementKind.ids)).sum) ∧
    ((∀ c ∈ cats, c.elements.classes.Nodup) →
      cats.Pairwise (fun a b => ∀ x ∈ a.elements.classes, x ∉ b.elements.classes) →
      (combine_analysis_results cats).all_elements.classes.length
        = (cats.map (fun c => catalogCount c ElementKind.classes)).sum) := by
  refine ⟨?_, ?_, ?_, ?_, ?_⟩
  · intro k hk
    fin_cases hk
    · exact congrArg some (length_flatten_map (fun c => c.elements.forms) cats)
    · exact congrArg some (length_flatten_map (fun c => c.elements.inputs) cats)
    · exact congrArg some (length_flatten_map (fun c => c.elements.buttons) cats)
    · exact congrArg some (length_flatten_map (fun c => c.elements.links) cats)
    · exact congrArg some (length_flatten_map (fun c => c.elements.headings) cats)
    · exact congrArg some (length_flatten_map (fun c => c.elements.images) cats)
    · exact congrArg some (length_flatten_map (fun c => c.elements.tables) cats)
  · exact dedup_length_le (fun c => c.elements.ids) cats
  · exact dedup_length_le (fun c => c.elements.classes) cats
  · exact dedup_length_eq (fun c => c.elements.ids) cats
  · exact dedup_length_eq (fun c => c.elements.classes) cats

/-- C3 witness: the amended statement applied to the concrete batch, with
the nodup and disjointness hypotheses discharged by evaluation. -/
theorem claim3_witness :
    combinedCountOpt (combine_analysis_results claim3batch) ElementKind.forms
        = some ((claim3batch.map (fun c => catalogCount c ElementKind.forms)).sum) ∧
    (combine_analysis_results claim3batch).all_elements.ids.length
        = (claim3batch.map (fun c => catalogCount c ElementKind.ids)).sum :=
  ⟨(claim3_combined_counts claim3batch).1 ElementKind.forms (by decide),
   (claim3_combined_counts claim3batch).2.2.2.1 (by decide) (by decide)⟩

/-! ### Claim C4 -/

/-- C4: a failed document read yields a catalog whose error field carries
the message and whose element lists are all empty, while a successful read
yields no error; the embedding is a total function either way. -/
theorem claim4_error_catalog (path msg : String) :
    (html_analyze path (Except.error msg)).error = some msg ∧
    (html_analyze path (Except.error msg)).elements = emptyElements ∧
    (html_analyze path (Except.error msg)).summary = zeroSummary ∧
    (∀ content : String, (html_analyze path (Except.ok content)).error = none) :=
  ⟨rfl, rfl, rfl, fun _ => rfl⟩

/-- C4 witness: the error contract evaluated at a concrete failure. -/
theorem claim4_witness :
    (html_analyze "broken.html" (Except.error "boom")).error = some "boom" ∧
    (html_analyze "broken.html" (Except.error "boom")).elements.forms = [] :=
  ⟨(claim4_error_catalog "broken.html" "boom").1,
   by rw [(claim4_error_catalog "broken.html" "boom").2.1]; rfl⟩

/-! ### Claim C6 -/

/-- C6: the worked parser example of the specification. -/
theorem claim6_parser_example :
    parse_ai_response
        "@smoke @ui\nScenario: Login works\nGiven I am on login\nWhen I submit\nThen I see dashboard\n"
      = [{ title := "Login works", tags := ["@smoke", "@ui"],
           steps := ["Given I am on login", "When I submit", "Then I see dashboard"] }] := by
  decide

/-! ### Claim C5 -/

/-- C5 counterexample: name attributes are deduplicated (two occurrences
collapse to one record, so the list cannot match the occurrence sequence),
and headings are emitted grouped by level, so the h1 at position 10 is
listed before the h2 at position 0 although the h2 occurs first in the
document. -/
theorem claim5_counterexample :
    extract_names claim5doc1.toList ≠ name_occurrences claim5doc1.toList ∧
    extract_names claim5doc1.toList = ["a"] ∧
    name_occurrences claim5doc1.toList = ["a", "a"] ∧
    ((extract claim5doc2).elements.headings.map (fun h => (h.level, h.text)))
        = [("h1", "c"), ("h2", "b")] ∧
    ((scanAll (matchPaired ("h2".toList)) claim5doc2.toList).map Prod.fst) = [0] ∧
    ((scanAll (matchPaired ("h1".toList)) claim5doc2.toList).map Prod.fst) = [10] := by
  decide

/-- C5 as amended: name attributes are deduplicated exactly like
identifiers and classes; forms, inputs, links, images, tables and data
attributes are each produced by one leftmost scan whose match positions
are strictly increasing (document order); buttons are the document-ordered
paired matches followed by the document-ordered input-button matches; and
headings are grouped by level h1..h6, document-ordered within each level. -/
theorem claim5_element_order (content : String) :
    (extract content).elements.names = (name_occurrences content.toList).dedup ∧
    (extract content).elements.inputs
        = (scanCaptures (matchOpenTag ("input".toList)) content.toList).map make_input ∧
    List.Chain' (· < ·)
        ((scanAll (matchOpenTag ("input".toList)) content.toList).map Prod.fst) ∧
    (extract content).elements.forms
        = (scanCaptures (matchPaired ("form".toList)) content.toList).enum.map
            (fun q => make_form q.1 q.2.1 q.2.2) ∧
    List.Chain' (· < ·)
        ((scanAll (matchPaired ("form".toList)) content.toList).map Prod.fst) ∧
    (extract content).elements.links
        = (scanCaptures (matchPaired ("a".toList)) content.toList).map
            (fun q => make_link q.1 q.2) ∧
    List.Chain' (· < ·)
        ((scanAll (matchPaired ("a".toList)) content.toList).map Prod.fst) ∧
    (extract content).elements.images
        = (scanCaptures (matchOpenTag ("img".toList)) content.toList).map make_image ∧
    List.Chain' (· < ·)
        ((scanAll (matchOpenTag ("img".toList)) content.toList).map Prod.fst) ∧
    (extract content).elements.tables
        = (scanCaptures (matchPaired ("table".toList)) content.toList).enum.map
            (fun q => make_table q.1 q.2.1 q.2.2) ∧
    List.Chain' (· < ·)
        ((scanAll (matchPaired ("table".toList)) content.toList).map Prod.fst) ∧
    (extract content).elements.data_attributes
        = (scanCaptures matchDataAttr content.toList).map
            (fun q => { attr := String.mk q.1, value := String.mk q.2 }) ∧
    List.Chain' (· < ·) ((scanAll matchDataAttr content.toList).map Prod.fst) ∧
    (extract content).elements.buttons
        = (scanCaptures (matchPaired ("button".toList)) content.toList).map
              (fun q => make_button_tag q.1 q.2)
          ++ (scanCaptures matchInputButton content.toList).map make_input_button ∧
    List.Chain' (· < ·)
        ((scanAll (matchPaired ("button".toList)) content.toList).map Prod.fst) ∧
    List.Chain' (· < ·) ((scanAll matchInputButton content.toList).map Prod.fst) ∧
    (extract content).elements.headings
        = (heading_tags.map (fun t =>
            (scanCaptures (matchPaired t) content.toList).map
              (fun q => make_heading t q.1 q.2))).flatten ∧
    (∀ t ∈ heading_tags,
      List.Chain' (· < ·) ((scanAll (matchPaired t) content.toList).map Prod.fst)) :=
  ⟨rfl, rfl, scanAll_chain _ _, rfl, scanAll_chain _ _, rfl, scanAll_chain _ _,
   rfl, scanAll_chain _ _, rfl, scanAll_chain _ _, rfl, scanAll_chain _ _,
   rfl, scanAll_chain _ _, scanAll_chain _ _, rfl,
   fun t _ => scanAll_chain (matchPaired t) _⟩

/-- C5 witness: the amended statement instantiated on concrete documents,
with the heading-level membership hypothesis discharged by evaluation. -/
theorem claim5_witness :
    (extract claim5doc1).elements.names = (name_occurrences claim5doc1.toList).dedup ∧
    (extract claim5doc1).elements.names = ["a"] ∧
    List.Chain' (· < ·)
        ((scanAll (matchPaired ("h1".toList)) "<h1>x</h1>".toList).map Prod.fst) :=
  ⟨(claim5_element_order claim5doc1).1, by decide,
   (claim5_element_order
      "<h1>x</h1>").2.2.2.2.2.2.2.2.2.2.2.2.2.2.2.2.2 ("h1".toList) (by decide)⟩

/-! ### Claim C7 -/

/-- C7: while a scenario is open, a tag line only overwrites the pending
tag buffer — the open record and the accumulated scenarios are untouched —
and a following `Scenario:` line flushes the open record unchanged and
opens the next record carrying exactly those pending tags. -/
theorem claim7_pending_tags (st : ParseState) (sc : Scenario) (tagRaw scnRaw : List Char)
    (hcur : st.current = some sc)
    (htag : ∃ t, pyStrip tagRaw = '@' :: t)
    (hscn : ∃ r, pyStrip scnRaw = scenarioLit ++ r) :
    (parse_line st tagRaw).current = some sc ∧
    (parse_line st tagRaw).scenarios = st.scenarios ∧
    (parse_line st tagRaw).currentTags = (pySplitWs (pyStrip tagRaw)).map String.mk ∧
    (parse_line (parse_line st tagRaw) scnRaw).scenarios = st.scenarios ++ [sc] ∧
    (parse_line (parse_line st tagRaw) scnRaw).current = some
      { title := String.mk (pyStrip (replaceAll scenarioLit [] (pyStrip scnRaw))),
        tags := (pySplitWs (pyStrip tagRaw)).map String.mk, steps := [] } := by
  obtain ⟨t, ht⟩ := htag
  obtain ⟨r, hr⟩ := hscn
  have e1 : parse_line st tagRaw
      = { st with currentTags := (pySplitWs (pyStrip tagRaw)).map String.mk } := by
    unfold parse_line
    rw [ht]
    rfl
  have e2 : ∀ st' : ParseState, parse_line st' scnRaw
      = { scenarios := st'.scenarios ++ st'.current.toList,
          current := some
            { title := String.mk (pyStrip (replaceAll scenarioLit [] (pyStrip scnRaw))),
              tags := st'.currentTags, steps := [] },
          currentTags := [] } := by
    intro st'
    unfold parse_line
    rw [hr]
    rfl
  refine ⟨?_, ?_, ?_, ?_, ?_⟩
  · rw [e1]; exact hcur
  · rw [e1]
  · rw [e1]
  · rw [e2, e1]; simp [hcur]
  · rw [e2, e1]

/-- C7 witness: the pending-tag behaviour evaluated on a concrete open
state and concrete lines. -/
theorem claim7_witness :
    (parse_line ⟨[], some ⟨"Open", ["@old"], ["Given a"]⟩, []⟩ "@x @y".toList).current
        = some ⟨"Open", ["@old"], ["Given a"]⟩ ∧
    (parse_line (parse_line ⟨[], some ⟨"Open", ["@old"], ["Given a"]⟩, []⟩ "@x @y".toList)
        "Scenario: Next".toList).current
        = some { title := String.mk (pyStrip (replaceAll scenarioLit []
                   (pyStrip "Scenario: Next".toList))),
                 tags := (pySplitWs (pyStrip "@x @y".toList)).map String.mk, steps := [] } :=
  ⟨(claim7_pending_tags ⟨[], some ⟨"Open", ["@old"], ["Given a"]⟩, []⟩
      ⟨"Open", ["@old"], ["Given a"]⟩ "@x @y".toList "Scenario: Next".toList rfl
      ⟨"x @y".toList, by decide⟩ ⟨" Next".toList, by decide⟩).1,
   (claim7_pending_tags ⟨[], some ⟨"Open", ["@old"], ["Given a"]⟩, []⟩
      ⟨"Open", ["@old"], ["Given a"]⟩ "@x @y".toList "Scenario: Next".toList rfl
      ⟨"x @y".toList, by decide⟩ ⟨" Next".toList, by decide⟩).2.2.2.2⟩

/-! ### Claim C8 -/

/-- A line that does not open a scenario keeps the state closed and keeps
the accumulated scenarios, changing at most the pending tag buffer. -/
theorem parse_line_no_open (scs : List Scenario) (tags : List String) (l : List Char)
    (h : startsWithL scenarioLit (pyStrip l) = false) :
    ∃ tags', parse_line ⟨scs, none, tags⟩ l = ⟨scs, none, tags'⟩ := by
  simp only [parse_line]
  split
  · exact ⟨tags, rfl⟩
  · split
    · exact ⟨(pySplitWs (pyStrip l)).map String.mk, rfl⟩
    · split
      · rename_i h3
        rw [h] at h3
        exact absurd h3 (by simp)
      · split
        · exact ⟨tags, rfl⟩
        · exact ⟨tags, rfl⟩

/-- Folding the line step over scenario-free lines keeps the state closed
and empty. -/
theorem parse_fold_no_scenario (lines : List (List Char)) :
    ∀ tags : List String,
    (∀ l ∈ lines, startsWithL scenarioLit (pyStrip l) = false) →
    (lines.foldl parse_line ⟨[], none, tags⟩).current = none ∧
    (lines.foldl parse_line ⟨[], none, tags⟩).scenarios = [] := by
  induction lines with
  | nil => intro tags _; exact ⟨rfl, rfl⟩
  | cons l ls ih =>
    intro tags h
    obtain ⟨tags', e⟩ := parse_line_no_open [] tags l (h l (List.mem_cons_self l ls))
    rw [List.foldl_cons, e]
    exact ih tags' (fun x hx => h x (List.mem_cons_of_mem l hx))

/-- C8: an input none of whose (stripped) lines starts with `Scenario:`
parses to an empty scenario sequence, and synthesis with such a response
always records the rule-based generation method. -/
theorem claim8_no_scenario_fallback (resp : String)
    (h : ∀ l ∈ splitLines resp.toList, startsWithL scenarioLit (pyStrip l) = false) :
    parse_ai_response resp = [] ∧
    (∀ aiEnabled useAi : Bool,
      generation_method aiEnabled useAi (some resp) = "rule_based") := by
  have h2 := parse_fold_no_scenario (splitLines resp.toList) [] h
  have hp : parse_ai_response resp = [] := by
    show (List.foldl parse_line ⟨[], none, []⟩ (splitLines resp.toList)).scenarios
        ++ (List.foldl parse_line ⟨[], none, []⟩ (splitLines resp.toList)).current.toList
        = []
    rw [h2.1, h2.2]
    rfl
  refine ⟨hp, fun aiEnabled useAi => ?_⟩
  unfold generation_method
  split
  · show (if (parse_ai_response resp).isEmpty = true then "rule_based" else "ai_powered")
        = "rule_based"
    rw [hp]
    rfl
  · rfl

/-- C8 witness: a concrete scenario-free response parses to nothing and
selects the rule-based path even with AI enabled and requested. -/
theorem claim8_witness :
    parse_ai_response "no scenarios here\nGiven x\n@t" = [] ∧
    generation_method true true (some "no scenarios here\nGiven x\n@t") = "rule_based" :=
  ⟨(claim8_no_scenario_fallback "no scenarios here\nGiven x\n@t" (by decide)).1,
   (claim8_no_scenario_fallback "no scenarios here\nGiven x\n@t" (by decide)).2 true true⟩

/-! ### Claim C9 -/

/-- C9: a stat size above 1,000,000 bytes suppresses all content-pattern
evidence, while the element extraction of the markup engine has no size
dependence at all — every tag-based scan result is still returned. -/
theorem claim9_size_guard (fileSize : Nat) (patterns : List String) (content : String)
    (h : fileSize > 1000000) :
    check_file_content fileSize patterns content = [] ∧
    (extract content).elements.forms = extract_forms content.toList ∧
    (extract content).elements.inputs = extract_inputs content.toList ∧
    (extract content).elements.ids = extract_ids content.toList ∧
    (extract content).elements.headings = extract_headings content.toList := by
  refine ⟨?_, rfl, rfl, rfl, rfl⟩
  unfold check_file_content
  rw [if_pos h]

/-- C9 witness: at stat size 1,000,001 no content evidence is produced
even though the pattern occurs, and the tag scans of the same document
still yield its form. -/
theorem claim9_witness :
    check_file_content 1000001 ["login"] claim1doc = [] ∧
    (extract claim1doc).elements.forms ≠ [] ∧
    containsSub "login".toList claim1doc.toList = true :=
  ⟨(claim9_size_guard 1000001 ["login"] claim1doc (by decide)).1,
   by decide, by decide⟩

/-! ### Structure lemmas for the scanners, used for claim C10 -/

/-- The scanner yields nothing on the empty input, whatever the fuel. -/
theorem scanGo_nil (m : Matcher α) (fuel pos : Nat) : scanGo m fuel pos [] = [] := by
  cases fuel <;> rfl

/-- The scanner does not depend on the fuel once the fuel covers the
input length. -/
theorem scanGo_fuel_eq (m : Matcher α) :
    ∀ (n n' pos : Nat) (s : List Char), s.length ≤ n → s.length ≤ n' →
      scanGo m n pos s = scanGo m n' pos s := by
  intro n
  induction n with
  | zero =>
    intro n' pos s h1 _
    have hs : s = [] := List.eq_nil_of_length_eq_zero (Nat.le_zero.mp h1)
    subst hs
    rw [scanGo_nil, scanGo_nil]
  | succ n ih =>
    intro n' pos s h1 h2
    cases s with
    | nil => rw [scanGo_nil, scanGo_nil]
    | cons c cs =>
      cases n' with
      | zero => simp at h2
      | succ n' =>
        rw [scanGo, scanGo]
        cases hm : m (c :: cs) with
        | none =>
          exact ih n' (pos + 1) cs (by simpa using h1) (by simpa using h2)
        | some ak =>
          obtain ⟨a, k⟩ := ak
          show (pos, a) :: scanGo m n (pos + k + 1) (cs.drop k)
              = (pos, a) :: scanGo m n' (pos + k + 1) (cs.drop k)
          have hd : (cs.drop k).length ≤ cs.length := by
            rw [List.length_drop]; omega
          simp only [List.length_cons] at h1 h2
          rw [ih n' (pos + k + 1) (cs.drop k) (by omega) (by omega)]

/-- A successful case-insensitive literal match splits the input after
the literal length. -/
theorem dropCiL_decomp :
    ∀ (pat u v : List Char), dropCiL pat u = some v →
      u = u.take pat.length ++ v ∧ pat.length ≤ u.length := by
  intro pat
  induction pat with
  | nil =>
    intro u v h
    simp only [dropCiL, Option.some.injEq] at h
    subst h
    exact ⟨rfl, Nat.zero_le _⟩
  | cons p ps ih =>
    intro u v h
    cases u with
    | nil => simp [dropCiL] at h
    | cons c cs =>
      simp only [dropCiL] at h
      split at h
      · obtain ⟨e, hle⟩ := ih cs v h
        refine ⟨?_, by simpa using Nat.succ_le_succ hle⟩
        conv_lhs => rw [show cs = cs.take ps.length ++ v from e]
        rfl
      · exact absurd h (by simp)

/-- The characters consumed by a case-insensitive literal match cannot be
`>` when the literal contains no `>`. -/
theorem dropCiL_take_notin :
    ∀ (pat u v : List Char), '>' ∉ pat → dropCiL pat u = some v →
      '>' ∉ u.take pat.length := by
  intro pat
  induction pat with
  | nil => intro u v _ _; simp
  | cons p ps ih =>
    intro u v hpat h
    cases u with
    | nil => simp [dropCiL] at h
    | cons c cs =>
      simp only [dropCiL] at h
      split at h
      · rename_i hc
        simp only [List.length_cons, List.take_succ_cons, List.mem_cons, not_or]
        constructor
        · intro he
          apply hpat
          have hp : p = '>' := by rw [← hc, ← he]; decide
          rw [hp]
          exact List.mem_cons_self _ _
        · exact ih cs v (fun hm => hpat (List.mem_cons_of_mem p hm)) h
      · exact absurd h (by simp)

/-- A successful split at `>` decomposes the input around the first `>`. -/
theorem splitAtGt_decomp :
    ∀ (l x r : List Char), splitAtGt l = some (x, r) →
      l = x ++ '>' :: r ∧ '>' ∉ x := by
  intro l
  induction l with
  | nil => intro x r h; simp [splitAtGt] at h
  | cons c cs ih =>
    intro x r h
    simp only [splitAtGt] at h
    split at h
    · rename_i hc
      simp only [Option.some.injEq, Prod.mk.injEq] at h
      obtain ⟨h1, h2⟩ := h
      subst h1; subst h2; subst hc
      exact ⟨rfl, by simp⟩
    · rename_i hc
      cases hs : splitAtGt cs with
      | none => rw [hs] at h; simp at h
      | some ar =>
        rw [hs] at h
        simp only [Option.some.injEq, Prod.mk.injEq] at h
        obtain ⟨h1, h2⟩ := h
        obtain ⟨e, hnot⟩ := ih ar.1 ar.2 (by rw [hs])
        subst h1; subst h2
        constructor
        · simpa using congrArg (c :: ·) e
        · simp only [List.mem_cons, not_or]
          exact ⟨fun he => hc he.symm, hnot⟩

/-- A successful split at a quote decomposes the input around the first
quote character. -/
theorem splitAtQuote_decomp :
    ∀ (l x r : List Char), splitAtQuote l = some (x, r) →
      ∃ q, isQuote q = true ∧ l = x ++ q :: r := by
  intro l
  induction l with
  | nil => intro x r h; simp [splitAtQuote] at h
  | cons c cs ih =>
    intro x r h
    simp only [splitAtQuote] at h
    split at h
    · rename_i hc
      simp only [Option.some.injEq, Prod.mk.injEq] at h
      obtain ⟨h1, h2⟩ := h
      subst h1; subst h2
      exact ⟨c, hc, rfl⟩
    · cases hs : splitAtQuote cs with
      | none => rw [hs] at h; simp at h
      | some ar =>
        rw [hs] at h
        simp only [Option.some.injEq, Prod.mk.injEq] at h
        obtain ⟨h1, h2⟩ := h
        obtain ⟨q, hq, e⟩ := ih ar.1 ar.2 (by rw [hs])
        subst h1; subst h2
        exact ⟨q, hq, by simpa using congrArg (c :: ·) e⟩

/-- Two decompositions around a first `>` agree. -/
theorem append_gt_cancel :
    ∀ (x y r r' : List Char), x ++ '>' :: r = y ++ '>' :: r' →
      '>' ∉ x → '>' ∉ y → x = y ∧ r = r' := by
  intro x
  induction x with
  | nil =>
    intro y r r' h _ hy
    cases y with
    | nil => simpa using h
    | cons d ys =>
      simp only [List.nil_append, List.cons_append, List.cons.injEq] at h
      exact absurd (h.1 ▸ List.mem_cons_self d ys) hy
  | cons c xs ih =>
    intro y r r' h hx hy
    cases y with
    | nil =>
      simp only [List.cons_append, List.nil_append, List.cons.injEq] at h
      exact absurd (h.1 ▸ List.mem_cons_self c xs) hx
    | cons d ys =>
      simp only [List.cons_append, List.cons.injEq] at h
      obtain ⟨rfl, h2⟩ := h
      obtain ⟨e1, e2⟩ := ih ys r r' h2
        (fun hm => hx (List.mem_cons_of_mem _ hm))
        (fun hm => hy (List.mem_cons_of_mem _ hm))
      exact ⟨by rw [e1], e2⟩

/-- A failed search stays failed on every suffix. -/
theorem searchFirst_drop_none (m : Matcher α) :
    ∀ (l : List Char), searchFirst m l = none → ∀ j, searchFirst m (l.drop j) = none := by
  intro l
  induction l with
  | nil => intro h j; simpa using h
  | cons c cs ih =>
    intro h j
    cases j with
    | zero => exact h
    | succ j =>
      simp only [searchFirst] at h
      cases hm : m (c :: cs) with
      | none =>
        rw [hm] at h
        exact ih h j
      | some a => rw [hm] at h; simp at h

/-- A successful search exposes a suffix where the matcher fires. -/
theorem searchFirst_some (m : Matcher α) :
    ∀ (l : List Char) (a : α), searchFirst m l = some a →
      ∃ j k, m (l.drop j) = some (a, k) := by
  intro l
  induction l with
  | nil =>
    intro a h
    simp only [searchFirst] at h
    cases hm : m [] with
    | none => rw [hm] at h; simp at h
    | some ak =>
      rw [hm] at h
      simp only [Option.map_some', Option.some.injEq] at h
      exact ⟨0, ak.2, by simp only [List.drop_nil]; rw [hm, ← h]⟩
  | cons c cs ih =>
    intro a h
    simp only [searchFirst] at h
    cases hm : m (c :: cs) with
    | none =>
      rw [hm] at h
      obtain ⟨j, k, hj⟩ := ih a h
      exact ⟨j + 1, k, hj⟩
    | some ak =>
      rw [hm] at h
      simp only [Option.some.injEq] at h
      exact ⟨0, ak.2, by simp only [List.drop_zero]; rw [hm, ← h]⟩

/-- A matcher firing on some suffix makes the search succeed. -/
theorem searchFirst_isSome_of_drop (m : Matcher α) :
    ∀ (l : List Char) (j : Nat) (x : α × Nat), m (l.drop j) = some x →
      (searchFirst m l).isSome = true := by
  intro l
  induction l with
  | nil =>
    intro j x h
    simp only [List.drop_nil] at h
    simp [searchFirst, h]
  | cons c cs ih =>
    intro j x h
    cases j with
    | zero =>
      simp only [List.drop_zero] at h
      simp [searchFirst, h]
    | succ j =>
      simp only [searchFirst]
      cases hm : m (c :: cs) with
      | none => exact ih j x h
      | some a => simp

/-- A lowercase literal consumes itself. -/
theorem dropCiL_self_append :
    ∀ (pat r : List Char), (∀ c ∈ pat, c.toLower = c) →
      dropCiL pat (pat ++ r) = some r := by
  intro pat
  induction pat with
  | nil => intro r _; rfl
  | cons p ps ih =>
    intro r h
    simp only [List.cons_append, dropCiL]
    rw [if_pos (h p (List.mem_cons_self p ps))]
    exact ih r (fun c hc => h c (List.mem_cons_of_mem p hc))

/-- A successful open-tag match decomposes the input as the matched
literal region, the attribute capture, the first `>`, and the rest; the
consumed-minus-one count is the literal length plus the capture length. -/
theorem matchOpenTag_decomp (tag s a : List Char) (k : Nat)
    (htag : '>' ∉ '<' :: tag)
    (hm : matchOpenTag tag s = some (a, k)) :
    ∃ pre rest, s = pre ++ a ++ '>' :: rest ∧ pre.length = tag.length + 1 ∧
      '>' ∉ pre ∧ '>' ∉ a ∧ k = pre.length + a.length := by
  unfold matchOpenTag at hm
  split at hm
  · exact absurd hm (by simp)
  · rename_i r1 h1
    split at hm
    · exact absurd hm (by simp)
    · rename_i attrs rest h2
      simp only [Option.some.injEq, Prod.mk.injEq] at hm
      obtain ⟨rfl, rfl⟩ := hm
      obtain ⟨e1, hlen⟩ := dropCiL_decomp _ _ _ h1
      have hnot := dropCiL_take_notin _ _ _ htag h1
      obtain ⟨e2, hnot2⟩ := splitAtGt_decomp _ _ _ h2
      have hlentake : (s.take ('<' :: tag).length).length = tag.length + 1 := by
        rw [List.length_take]
        simp only [List.length_cons] at hlen ⊢
        omega
      rw [e2] at e1
      refine ⟨s.take ('<' :: tag).length, rest, ?_, hlentake, hnot, hnot2, ?_⟩
      · rw [List.append_assoc]
        exact e1
      · have hlentotal := congrArg List.length e1
        simp only [List.length_append, List.length_cons] at hlentotal
        rw [hlentake]
        simp only [List.length_cons] at hlentake
        rw [hlentake] at hlentotal
        omega

/-- At every position strictly inside a rejected input-tag region, the
input-button matcher fails: the region up to the first `>` seen from the
inner position is a suffix of the rejected attribute region, and the
type sub-pattern search is closed under suffixes. -/
theorem matchInputButton_skip (s a : List Char) (k : Nat)
    (hm : matchOpenTag ("input".toList) s = some (a, k))
    (hp : searchBtnType a = false) :
    ∀ j, 1 ≤ j → j ≤ k → matchInputButton (s.drop j) = none := by
  obtain ⟨pre, rest, hs, hplen, hpre, ha, hk⟩ :=
    matchOpenTag_decomp ("input".toList) s a k (by decide) hm
  intro j h1 hj
  cases h2 : matchOpenTag ("input".toList) (s.drop j) with
  | none => unfold matchInputButton; rw [h2]
  | some ak' =>
    obtain ⟨a', k'⟩ := ak'
    obtain ⟨pre', rest', hs', hplen', hpre', ha', hk'⟩ :=
      matchOpenTag_decomp ("input".toList) (s.drop j) a' k' (by decide) h2
    have hj' : j ≤ (pre ++ a).length := by
      rw [List.length_append]; omega
    have e1 : s.drop j = (pre ++ a).drop j ++ '>' :: rest := by
      conv_lhs => rw [hs]
      exact List.drop_append_of_le_length hj'
    have e2 : s.drop j = (pre' ++ a') ++ '>' :: rest' := hs'
    have hx : '>' ∉ (pre ++ a).drop j := by
      intro hmem
      rcases List.mem_append.mp (List.mem_of_mem_drop hmem) with h | h
      · exact hpre h
      · exact ha h
    have hy : '>' ∉ pre' ++ a' := by
      intro hmem
      rcases List.mem_append.mp hmem with h | h
      · exact hpre' h
      · exact ha' h
    obtain ⟨exy, -⟩ := append_gt_cancel _ _ _ _ (e1.symm.trans e2) hx hy
    have ea' : a' = a.drop j := by
      have hstep : ((pre ++ a).drop j).drop pre'.length = a' := by
        rw [exy]
        have := @List.drop_append _ pre' a' 0
        simp only [Nat.add_zero, List.drop_zero] at this
        exact this
      rw [List.drop_drop] at hstep
      rw [show j + pre'.length = pre.length + j by omega] at hstep
      rw [List.drop_append j] at hstep
      exact hstep.symm
    have hnone : searchFirst matchBtnTypeAt a = none := by
      cases hsf : searchFirst matchBtnTypeAt a with
      | none => rfl
      | some x => unfold searchBtnType at hp; rw [hsf] at hp; simp at hp
    have hb' : searchBtnType a' = false := by
      unfold searchBtnType
      rw [ea', searchFirst_drop_none _ _ hnone j]
      rfl
    unfold matchInputButton
    rw [h2]
    show (if searchBtnType a' = true then some (a', k') else none) = none
    rw [hb']
    rfl

/-- Scanner walk: stepping one character at a time through a region where
the matcher never fires lands at the end of the region. -/
theorem scanGo_walk (m : Matcher α) :
    ∀ (k : Nat) (s : List Char) (pos n : Nat),
      k + 1 ≤ s.length → s.length ≤ n + 1 →
      (∀ j, 1 ≤ j → j ≤ k → m (s.drop j) = none) →
      scanGo m n (pos + 1) (s.drop 1) = scanGo m n (pos + k + 1) (s.drop (k + 1)) := by
  intro k
  induction k with
  | zero => intro s pos n _ _ _; rfl
  | succ k ih =>
    intro s pos n hk hn hnone
    have h1 : m (s.drop 1) = none := hnone 1 le_rfl (by omega)
    obtain ⟨d, ds, hd⟩ : ∃ d ds, s.drop 1 = d :: ds := by
      cases hs1 : s.drop 1 with
      | nil =>
        have := congrArg List.length hs1
        rw [List.length_drop] at this
        simp at this
        omega
      | cons d ds => exact ⟨d, ds, rfl⟩
    obtain ⟨n', rfl⟩ : ∃ n', n = n' + 1 := by
      cases n with
      | zero => omega
      | succ n' => exact ⟨n', rfl⟩
    have hds : ds = s.drop (1 + 1) := by rw [← List.drop_drop, hd]; rfl
    have step : scanGo m (n' + 1) (pos + 1) (s.drop 1) = scanGo m n' (pos + 2) ds := by
      rw [hd] at h1 ⊢
      rw [scanGo, h1]
    have hlds : ds.length = s.length - 2 := by
      rw [hds, List.length_drop]
    have fuelfix : scanGo m n' (pos + 2) ds = scanGo m (n' + 1) (pos + 2) ds :=
      scanGo_fuel_eq m n' (n' + 1) (pos + 2) ds (by omega) (by omega)
    have ihx := ih (s.drop 1) (pos + 1) (n' + 1)
      (by rw [List.length_drop]; omega)
      (by rw [List.length_drop]; omega)
      (fun j hj1 hjk => by
        rw [List.drop_drop]
        exact hnone (1 + j) (by omega) (by omega))
    calc scanGo m (n' + 1) (pos + 1) (s.drop 1)
        = scanGo m n' (pos + 2) ds := step
      _ = scanGo m (n' + 1) (pos + 2) ds := fuelfix
      _ = scanGo m (n' + 1) (pos + 1 + 1) ((s.drop 1).drop 1) := by
          rw [List.drop_drop, ← hds]
      _ = scanGo m (n' + 1) (pos + 1 + k + 1) ((s.drop 1).drop (k + 1)) := ihx
      _ = scanGo m (n' + 1) (pos + (k + 1) + 1) (s.drop (k + 1 + 1)) := by
          rw [List.drop_drop]
          rw [show 1 + (k + 1) = k + 1 + 1 by omega,
            show pos + 1 + k + 1 = pos + (k + 1) + 1 by omega]

/-- The input-button scan is the filter of the plain input-tag scan by the
type sub-pattern test: the two scans emit the same matches, because a
rejected region can hide no accepted inner match (its inner regions are
suffixes of the rejected region). -/
theorem scanGo_filter :
    ∀ (L : Nat) (s : List Char), s.length ≤ L → ∀ (n pos : Nat), s.length ≤ n →
      scanGo matchInputButton n pos s
        = (scanGo (matchOpenTag ("input".toList)) n pos s).filter
            (fun q => searchBtnType q.2) := by
  intro L
  induction L with
  | zero =>
    intro s hs n pos _
    have hnil : s = [] := List.eq_nil_of_length_eq_zero (Nat.le_zero.mp hs)
    subst hnil
    rw [scanGo_nil, scanGo_nil]
    rfl
  | succ L ih =>
    intro s hs n pos hn
    cases s with
    | nil =>
      rw [scanGo_nil, scanGo_nil]
      rfl
    | cons c cs =>
      cases n with
      | zero => simp at hn
      | succ n =>
        simp only [List.length_cons] at hs hn
        cases hm : matchOpenTag ("input".toList) (c :: cs) with
        | none =>
          have hm2 : matchInputButton (c :: cs) = none := by
            unfold matchInputButton; rw [hm]
          rw [scanGo, scanGo, hm, hm2]
          exact ih cs (by omega) n (pos + 1) (by omega)
        | some ak =>
          obtain ⟨a, k⟩ := ak
          by_cases hb : searchBtnType a = true
          · have hm2 : matchInputButton (c :: cs) = some (a, k) := by
              unfold matchInputButton
              rw [hm]
              show (if searchBtnType a = true then some (a, k) else none) = some (a, k)
              rw [hb]
              rfl
            rw [scanGo, scanGo, hm, hm2]
            show (pos, a) :: scanGo matchInputButton n (pos + k + 1) (cs.drop k)
                = List.filter (fun q => searchBtnType q.2)
                    ((pos, a) :: scanGo (matchOpenTag ("input".toList)) n
                      (pos + k + 1) (cs.drop k))
            rw [List.filter_cons, if_pos (by simpa using hb)]
            exact congrArg ((pos, a) :: ·)
              (ih (cs.drop k) (by rw [List.length_drop]; omega) n (pos + k + 1)
                (by rw [List.length_drop]; omega))
          · have hb' : searchBtnType a = false := by
              cases hsb : searchBtnType a with
              | false => rfl
              | true => exact absurd hsb hb
            have hm2 : matchInputButton (c :: cs) = none := by
              unfold matchInputButton
              rw [hm]
              show (if searchBtnType a = true then some (a, k) else none) = none
              rw [hb']
              rfl
            rw [scanGo, scanGo, hm, hm2]
            show scanGo matchInputButton n (pos + 1) cs
                = List.filter (fun q => searchBtnType q.2)
                    ((pos, a) :: scanGo (matchOpenTag ("input".toList)) n
                      (pos + k + 1) (cs.drop k))
            rw [List.filter_cons, if_neg (by simp [hb'])]
            have hk1 : k + 1 ≤ (c :: cs).length := by
              obtain ⟨pre, rest, hs2, hplen, -, -, hkk⟩ :=
                matchOpenTag_decomp _ _ _ _ (by decide) hm
              have hlen2 : (c :: cs).length = pre.length + a.length + rest.length + 1 := by
                rw [hs2]
                simp only [List.length_append, List.length_cons]
                omega
              rw [hlen2, hkk]
              omega
            have hwalk := scanGo_walk matchInputButton k (c :: cs) pos n hk1
              (by simp only [List.length_cons]; omega)
              (matchInputButton_skip (c :: cs) a k hm hb')
            rw [show (c :: cs).drop 1 = cs from rfl,
              show (c :: cs).drop (k + 1) = cs.drop k from rfl] at hwalk
            rw [hwalk]
            exact ih (cs.drop k) (by rw [List.length_drop]; omega) n (pos + k + 1)
              (by rw [List.length_drop]; omega)

/-- Filter characterisation of the input-button scan on a whole document. -/
theorem scanAll_inputButton_filter (content : List Char) :
    scanAll matchInputButton content
      = (scanAll (matchOpenTag ("input".toList)) content).filter
          (fun q => searchBtnType q.2) :=
  scanGo_filter content.length content le_rfl content.length 0 le_rfl

/-! ### Claim C10 -/

/-- When the first type-attribute match at a position captures one of the
three button words, the button type sub-pattern also matches there. -/
theorem matchBtnTypeAt_of_attr (u w : List Char) (k : Nat)
    (hw : w ∈ btnTypeWords)
    (h : matchAttrAt ("type".toList) false u = some (w, k)) :
    ∃ k', matchBtnTypeAt u = some ((), k') := by
  unfold matchAttrAt at h
  split at h
  · exact absurd h (by simp)
  · rename_i r1 h1
    split at h
    · rename_i r3 he
      split at h
      · rename_i q r5 hq
        split at h
        · rename_i hqt
          split at h
          · rename_i cap rest hsq
            simp only [Bool.false_and, Bool.false_eq_true, if_false,
              Option.some.injEq, Prod.mk.injEq] at h
            obtain ⟨rfl, -⟩ := h
            obtain ⟨q2, hq2, hr5⟩ := splitAtQuote_decomp _ _ _ hsq
            have hw' : cap = "button".toList ∨ cap = "submit".toList
                ∨ cap = "reset".toList := by
              simpa [btnTypeWords] using hw
            have hfind : List.findSome? (fun w' => dropCiL w' r5) btnTypeWords
                = some (q2 :: rest) := by
              subst hr5
              rcases hw' with hw' | hw' | hw'
              all_goals subst hw'
              · show List.findSome? _ ("button".toList :: _) = _
                rw [List.findSome?]
                rw [dropCiL_self_append _ _ (by decide)]
              · show List.findSome? _ ("button".toList :: "submit".toList :: _) = _
                rw [List.findSome?, show dropCiL "button".toList
                    ("submit".toList ++ q2 :: rest) = none from rfl]
                rw [List.findSome?]
                rw [dropCiL_self_append _ _ (by decide)]
              · show List.findSome? _
                    ("button".toList :: "submit".toList :: "reset".toList :: _) = _
                rw [List.findSome?, show dropCiL "button".toList
                    ("reset".toList ++ q2 :: rest) = none from rfl]
                rw [List.findSome?, show dropCiL "submit".toList
                    ("reset".toList ++ q2 :: rest) = none from rfl]
                rw [List.findSome?]
                rw [dropCiL_self_append _ _ (by decide)]
            refine ⟨u.length - rest.length - 1, ?_⟩
            have h1' : dropCiL ['t', 'y', 'p', 'e'] u = some r1 := h1
            simp [matchBtnTypeAt, h1', he, hq, hqt, hfind, hq2]
          · exact absurd h (by simp)
        · exact absurd h (by simp)
      · exact absurd h (by simp)
    · exact absurd h (by simp)

/-- An input record whose reported type is one of the three button words
makes the attribute region pass the button type test. -/
theorem searchBtnType_of_type (attrs : List Char)
    (h : (make_input attrs).type = "button" ∨ (make_input attrs).type = "submit"
      ∨ (make_input attrs).type = "reset") :
    searchBtnType attrs = true := by
  have hdef : (make_input attrs).type
      = pyOrDefault (extract_attribute attrs ("type".toList)) "text" := rfl
  obtain ⟨w, hx, hw⟩ :
      ∃ w, extract_attribute attrs ("type".toList) = some w ∧ w ∈ btnTypeWords := by
    cases hx : extract_attribute attrs ("type".toList) with
    | none =>
      rw [hdef, hx] at h
      rcases h with h | h | h <;> exact absurd h (by decide)
    | some t =>
      rw [hdef, hx] at h
      rw [show pyOrDefault (some t) "text"
          = (if t.isEmpty = true then "text" else String.mk t) from rfl] at h
      by_cases he : t.isEmpty = true
      · rw [if_pos he] at h
        rcases h with h | h | h <;> exact absurd h (by decide)
      · rw [if_neg he] at h
        refine ⟨t, rfl, ?_⟩
        rcases h with h | h | h
        · have ht : t = "button".toList := congrArg String.data h
          rw [ht]; exact List.mem_cons_self _ _
        · have ht : t = "submit".toList := congrArg String.data h
          rw [ht]; exact List.mem_cons_of_mem _ (List.mem_cons_self _ _)
        · have ht : t = "reset".toList := congrArg String.data h
          rw [ht]
          exact List.mem_cons_of_mem _ (List.mem_cons_of_mem _ (List.mem_cons_self _ _))
  obtain ⟨j, k, hj⟩ := searchFirst_some _ _ _ hx
  obtain ⟨k', hk'⟩ := matchBtnTypeAt_of_attr _ _ _ hw hj
  show (searchFirst matchBtnTypeAt attrs).isSome = true
  exact searchFirst_isSome_of_drop matchBtnTypeAt attrs j ((), k') hk'

/-- C10: an input element whose reported type attribute is button, submit
or reset contributes its record to the inputs list and a record to the
buttons list of the same catalog, and the summary counts every input
capture in total_inputs and every button-typed input capture (on top of
the paired buttons) in total_buttons. -/
theorem claim10_input_buttons (content : String) (attrs : List Char)
    (hmem : attrs ∈ scanCaptures (matchOpenTag ("input".toList)) content.toList)
    (htype : (make_input attrs).type = "button" ∨ (make_input attrs).type = "submit"
      ∨ (make_input attrs).type = "reset") :
    make_input attrs ∈ (extract content).elements.inputs ∧
    make_input_button attrs ∈ (extract content).elements.buttons ∧
    (extract content).summary.total_inputs
        = (scanCaptures (matchOpenTag ("input".toList)) content.toList).length ∧
    (extract content).summary.total_buttons
        = (scanCaptures (matchPaired ("button".toList)) content.toList).length
          + ((scanAll (matchOpenTag ("input".toList)) content.toList).filter
              (fun q => searchBtnType q.2)).length := by
  have hmem2 : attrs ∈ scanCaptures matchInputButton content.toList := by
    unfold scanCaptures at hmem ⊢
    rw [scanAll_inputButton_filter]
    rcases List.mem_map.mp hmem with ⟨q, hq, rfl⟩
    exact List.mem_map_of_mem _
      (List.mem_filter.mpr ⟨hq, searchBtnType_of_type q.2 htype⟩)
  refine ⟨List.mem_map_of_mem make_input hmem, ?_, ?_, ?_⟩
  · exact List.mem_append_right _ (List.mem_map_of_mem make_input_button hmem2)
  · show ((scanCaptures (matchOpenTag ("input".toList)) content.toList).map
        make_input).length = _
    rw [List.length_map]
  · show ((scanCaptures (matchPaired ("button".toList)) content.toList).map
          (fun q => make_button_tag q.1 q.2)
        ++ (scanCaptures matchInputButton content.toList).map
          make_input_button).length = _
    rw [List.length_append, List.length_map, List.length_map]
    congr 1
    unfold scanCaptures
    rw [List.length_map, scanAll_inputButton_filter]

/-- C10 witness: a concrete submit-typed input lands in both the inputs
and the buttons list of its catalog. -/
theorem claim10_witness :
    make_input " type=\x22submit\x22 value=\x22Go\x22".toList
        ∈ (extract "<p><input type=\x22submit\x22 value=\x22Go\x22></p>").elements.inputs ∧
    make_input_button " type=\x22submit\x22 value=\x22Go\x22".toList
        ∈ (extract "<p><input type=\x22submit\x22 value=\x22Go\x22></p>").elements.buttons :=
  ⟨(claim10_input_buttons "<p><input type=\x22submit\x22 value=\x22Go\x22></p>"
      " type=\x22submit\x22 value=\x22Go\x22".toList (by decide) (by decide)).1,
   (claim10_input_buttons "<p><input type=\x22submit\x22 value=\x22Go\x22></p>"
      " type=\x22submit\x22 value=\x22Go\x22".toList (by decide) (by decide)).2.1⟩

end AIT
